import Mathlib

/-!
Verification of the sketch2cad geometry pipeline.

Shallow embedding of the core modules of the repository:
  * `src/sketch2cad/export_dxf.py`   (curve sampling and DXF export)
  * `src/sketch2cad/metrics.py`      (DXF metrics)
  * `src/sketch2cad/scale_reference.py` (mm-per-px calibration)
  * `src/sketch2cad/vectorize_potrace.py` (SVG transform parsing)
  * `src/sketch2cad/contours.py`     (outer/holes mask splitting)

Real coordinates and intensity arithmetic are modelled over `ℚ` (exact
arithmetic; the Python code uses IEEE doubles, which is immaterial to the
properties considered here, all of which are exact at the inputs involved).
Fallible Python code (raising `ValueError`, `IndexError`, `ZeroDivisionError`)
is modelled with `Except`/`Option` results.
-/

set_option maxRecDepth 100000

namespace Sketch2Cad

/-- Decidable equality for `Except`, used to evaluate results on concrete
inputs. -/
instance {ε α : Type} [DecidableEq ε] [DecidableEq α] : DecidableEq (Except ε α) :=
  fun x y =>
    match x, y with
    | .ok a, .ok b =>
      match decEq a b with
      | isTrue h => isTrue (h ▸ rfl)
      | isFalse h => isFalse (fun hh => h (Except.ok.inj hh))
    | .error a, .error b =>
      match decEq a b with
      | isTrue h => isTrue (h ▸ rfl)
      | isFalse h => isFalse (fun hh => h (Except.error.inj hh))
    | .ok _, .error _ => isFalse (fun hh => Except.noConfusion hh)
    | .error _, .ok _ => isFalse (fun hh => Except.noConfusion hh)

/-- 2D point, as the `Point = Tuple[float, float]` alias of the source. -/
abbrev Pt := ℚ × ℚ

/-! ## models.py -/

/-- `PathSegment` from `models.py`: a tagged segment; `kind` is one of
`"line" | "cubic_bezier" | "quad_bezier"` and `pts` is a list of points whose
interpretation depends on the kind. -/
structure PathSegment where
  kind : String
  pts : List Pt
deriving DecidableEq

/-- `VectorPath` from `models.py`: segments, closed flag and layer label. -/
structure VectorPath where
  segments : List PathSegment
  is_closed : Bool := false
  layer : String := "OUTLINE"
deriving DecidableEq

/-! ## export_dxf.py: curve sampling -/

/-- One Bernstein cubic evaluation, exactly the per-coordinate formula in the
loop body of `_sample_cubic_bezier`. -/
def cubic_point (p0 p1 p2 p3 : Pt) (t : ℚ) : Pt :=
  let mt := 1 - t
  (mt ^ 3 * p0.1 + 3 * mt ^ 2 * t * p1.1 + 3 * mt * t ^ 2 * p2.1 + t ^ 3 * p3.1,
   mt ^ 3 * p0.2 + 3 * mt ^ 2 * t * p1.2 + 3 * mt * t ^ 2 * p2.2 + t ^ 3 * p3.2)

/-- `_sample_cubic_bezier`: uniform sampling of `t = i / n` for
`i = 0, …, n`.  (In Python `n = 0` would raise `ZeroDivisionError`; division
on `ℚ` is total, and every theorem below assumes `1 ≤ n` as the
`CurveSampler` contract requires.) -/
def sample_cubic_bezier (p0 p1 p2 p3 : Pt) (n : ℕ) : List Pt :=
  (List.range (n + 1)).map
    (fun (i : ℕ) => cubic_point p0 p1 p2 p3 ((i : ℚ) / (n : ℚ)))

/-- One Bernstein quadratic evaluation, the loop body of `_sample_quad_bezier`. -/
def quad_point (p0 p1 p2 : Pt) (t : ℚ) : Pt :=
  let mt := 1 - t
  (mt ^ 2 * p0.1 + 2 * mt * t * p1.1 + t ^ 2 * p2.1,
   mt ^ 2 * p0.2 + 2 * mt * t * p1.2 + t ^ 2 * p2.2)

/-- `_sample_quad_bezier`. -/
def sample_quad_bezier (p0 p1 p2 : Pt) (n : ℕ) : List Pt :=
  (List.range (n + 1)).map
    (fun (i : ℕ) => quad_point p0 p1 p2 ((i : ℚ) / (n : ℚ)))

/-! ## scale_reference.py -/

/-- The fields of `PipelineConfig` (`models.py`) read by `compute_mm_per_px`;
the remaining preprocessing fields of the dataclass do not enter that
function. -/
structure PipelineConfig where
  mm_per_px : Option ℚ := none
  ref_mm : Option ℚ := none
  ref_px : Option ℚ := none
deriving DecidableEq

/-- `compute_mm_per_px` from `scale_reference.py`; `ValueError` is modelled as
`Except.error` carrying the message. -/
def compute_mm_per_px (cfg : PipelineConfig) : Except String ℚ :=
  match cfg.mm_per_px with
  | some m =>
    if m ≤ 0 then .error "mm_per_px must be > 0" else .ok m
  | none =>
    match cfg.ref_mm, cfg.ref_px with
    | some rm, some rp =>
      if rm ≤ 0 ∨ rp ≤ 0 then .error "ref_mm and ref_px must be > 0"
      else .ok (rm / rp)
    | _, _ => .error "Missing scaling reference"

/-! ## Theorems for C1 and C6 -/

/-- Bernstein cubic at `t = 0` reproduces the first control point exactly. -/
theorem cubic_point_zero (p0 p1 p2 p3 : Pt) : cubic_point p0 p1 p2 p3 0 = p0 := by
  apply Prod.ext <;> (simp only [cubic_point]; ring)

/-- Bernstein cubic at `t = 1` reproduces the last control point exactly. -/
theorem cubic_point_one (p0 p1 p2 p3 : Pt) : cubic_point p0 p1 p2 p3 1 = p3 := by
  apply Prod.ext <;> (simp only [cubic_point]; ring)

/-- **C1**: for every four control points and every sample count `n ≥ 1`,
sampling a cubic Bezier returns exactly `n + 1` points, the `i`-th point is
the Bernstein evaluation at the uniformly spaced parameter `t = i / n`, the
first returned point equals `p0` and the last equals `p3` exactly. -/
theorem c1_cubic_sampling (p0 p1 p2 p3 : Pt) (n : ℕ) (hn : 1 ≤ n) :
    (sample_cubic_bezier p0 p1 p2 p3 n).length = n + 1 ∧
    (∀ i : ℕ, i ≤ n →
      (sample_cubic_bezier p0 p1 p2 p3 n)[i]? =
        some (cubic_point p0 p1 p2 p3 ((i : ℚ) / (n : ℚ)))) ∧
    (sample_cubic_bezier p0 p1 p2 p3 n).head? = some p0 ∧
    (sample_cubic_bezier p0 p1 p2 p3 n).getLast? = some p3 := by
  have hn0 : (n : ℚ) ≠ 0 := Nat.cast_ne_zero.mpr (by omega)
  refine ⟨?_, ?_, ?_, ?_⟩
  · simp only [sample_cubic_bezier, List.length_map, List.length_range]
  · intro i hi
    simp only [sample_cubic_bezier, List.getElem?_map,
      List.getElem?_range (Nat.lt_succ_of_le hi), Option.map_some']
  · have h0 : cubic_point p0 p1 p2 p3 ((0 : ℕ) / (n : ℚ)) = p0 := by
      rw [Nat.cast_zero, zero_div]; exact cubic_point_zero p0 p1 p2 p3
    simp only [sample_cubic_bezier, List.head?_map, List.range_succ_eq_map,
      List.head?_cons, Option.map_some']
    rw [h0]
  · have hr : (List.range (n + 1)).getLast? = some n := by
      rw [List.range_succ]; exact List.getLast?_concat _
    simp only [sample_cubic_bezier, List.getLast?_map, hr, Option.map_some']
    rw [div_self hn0, cubic_point_one]

/-- Witness for C1 at `p0 = (0,0)`, `p1 = (1,2)`, `p2 = (3,4)`, `p3 = (5,6)`,
`n = 2`. -/
theorem c1_cubic_sampling_witness :
    (1 : ℕ) ≤ 2 ∧
    ((sample_cubic_bezier (0,0) (1,2) (3,4) (5,6) 2).length = 2 + 1 ∧
    (∀ i : ℕ, i ≤ 2 →
      (sample_cubic_bezier (0,0) (1,2) (3,4) (5,6) 2)[i]? =
        some (cubic_point (0,0) (1,2) (3,4) (5,6) ((i : ℚ) / (2 : ℚ)))) ∧
    (sample_cubic_bezier (0,0) (1,2) (3,4) (5,6) 2).head? = some (0,0) ∧
    (sample_cubic_bezier (0,0) (1,2) (3,4) (5,6) 2).getLast? = some (5,6)) :=
  ⟨by decide, c1_cubic_sampling (0,0) (1,2) (3,4) (5,6) 2 (by decide)⟩

/-- **C6**: with no direct `mm_per_px` override, `ref_mm = 100, ref_px = 200`
yields exactly `1/2`; omitting either reference raises; a non-positive value
in either reference raises. -/
theorem c6_scale_computation :
    compute_mm_per_px ⟨none, some 100, some 200⟩ = .ok (1 / 2) ∧
    (∀ rp, (compute_mm_per_px ⟨none, none, rp⟩).isOk = false) ∧
    (∀ rm, (compute_mm_per_px ⟨none, rm, none⟩).isOk = false) ∧
    (∀ rm rp, rm ≤ 0 ∨ rp ≤ 0 →
      (compute_mm_per_px ⟨none, some rm, some rp⟩).isOk = false) := by
  refine ⟨?_, ?_, ?_, ?_⟩
  · show Except.ok ((100 : ℚ) / 200) = Except.ok (1 / 2)
    exact congrArg Except.ok (by norm_num)
  · intro rp; cases rp <;> rfl
  · intro rm; cases rm <;> rfl
  · intro rm rp h
    simp only [compute_mm_per_px, if_pos h]
    rfl

/-- Witness for C6 with the non-positive reference `rm = -3, rp = 200`. -/
theorem c6_scale_computation_witness :
    ((-3 : ℚ) ≤ 0 ∨ (200 : ℚ) ≤ 0) ∧
    (compute_mm_per_px ⟨none, some (-3), some 200⟩).isOk = false :=
  ⟨Or.inl (by norm_num),
   c6_scale_computation.2.2.2 (-3) 200 (Or.inl (by norm_num))⟩

/-! ## vectorize_potrace.py: affine transforms

The six-coefficient affine matrix `[x', y'] = [a c; b d]·[x, y] + [e, f]`. -/

/-- `Affine` from `vectorize_potrace.py` (a 6-tuple in the source). -/
structure Affine where
  a : ℚ
  b : ℚ
  c : ℚ
  d : ℚ
  e : ℚ
  f : ℚ
deriving DecidableEq

/-- `_affine_identity`. -/
def affine_identity : Affine := ⟨1, 0, 0, 1, 0, 0⟩

/-- `_affine_mul m1 m2`: the composition `m1 ∘ m2` (apply `m2` first, then
`m1`), coefficient by coefficient as in the source. -/
def affine_mul (m1 m2 : Affine) : Affine :=
  ⟨m1.a * m2.a + m1.c * m2.b,
   m1.b * m2.a + m1.d * m2.b,
   m1.a * m2.c + m1.c * m2.d,
   m1.b * m2.c + m1.d * m2.d,
   m1.a * m2.e + m1.c * m2.f + m1.e,
   m1.b * m2.e + m1.d * m2.f + m1.f⟩

/-- `_affine_apply`. -/
def affine_apply (m : Affine) (p : Pt) : Pt :=
  (m.a * p.1 + m.c * p.2 + m.e, m.b * p.1 + m.d * p.2 + m.f)

/-! ### The transform-attribute scanner

Character-level model of
`re.finditer(r"(translate|scale|matrix)\s*\(([^)]*)\)", transform)`:
the scanner walks the string left to right; at each position it tries to
match one of the three keywords followed by optional whitespace, `(`, a run
of non-`)` characters, and `)`; on success it emits the token and resumes
after the closing parenthesis, otherwise it advances one character. -/

/-- Python `\s` (ASCII range): space, tab, newline, carriage return,
vertical tab, form feed. -/
def is_space_py (c : Char) : Bool :=
  c = ' ' ∨ c = '\t' ∨ c = '\n' ∨ c = '\r' ∨ c.toNat = 11 ∨ c.toNat = 12

/-- Python `str.strip()` (whitespace at both ends). -/
def trim_ws (s : List Char) : List Char :=
  ((s.dropWhile is_space_py).reverse.dropWhile is_space_py).reverse

/-- The three keywords the regex alternation recognises. -/
inductive TransformKind where
  | tTranslate
  | tScale
  | tMatrix
deriving DecidableEq

/-- Keyword spelling of each alternative. -/
def kind_word : TransformKind → List Char
  | .tTranslate => "translate".toList
  | .tScale => "scale".toList
  | .tMatrix => "matrix".toList

/-- `[^)]*` followed by `)`: the argument run and the rest of the input,
or `none` when no closing parenthesis follows. -/
def take_until_rparen : List Char → Option (List Char × List Char)
  | [] => none
  | c :: cs =>
    if c = ')' then some ([], cs)
    else (take_until_rparen cs).map (fun p => (c :: p.1, p.2))

/-- Try to match one keyword alternative at the current position. -/
def try_token (k : TransformKind) (cs : List Char) : Option (List Char × List Char) :=
  let w := kind_word k
  if w.isPrefixOf cs then
    match (cs.drop w.length).dropWhile is_space_py with
    | '(' :: r => take_until_rparen r
    | _ => none
  else none

/-- Try the three alternatives (the keywords have distinct first letters, so
at most one can match at a given position). -/
def try_match (cs : List Char) : Option (TransformKind × List Char × List Char) :=
  match try_token .tTranslate cs with
  | some pr => some (.tTranslate, pr.1, pr.2)
  | none =>
    match try_token .tScale cs with
    | some pr => some (.tScale, pr.1, pr.2)
    | none => (try_token .tMatrix cs).map (fun pr => (.tMatrix, pr.1, pr.2))

/-- Fuelled scan loop; a successful match always consumes at least one
character, so fuel `cs.length` suffices. -/
def scan_fuel : ℕ → List Char → List (TransformKind × List Char)
  | 0, _ => []
  | _ + 1, [] => []
  | fuel + 1, c :: cs =>
    match try_match (c :: cs) with
    | some (k, args, rest) => (k, args) :: scan_fuel fuel rest
    | none => scan_fuel fuel cs

/-- All regex matches, in order: token kind plus raw argument text. -/
def scan_tokens (cs : List Char) : List (TransformKind × List Char) :=
  scan_fuel cs.length cs

/-! ### Numeric literals

Model of Python `float(x)`: strip whitespace, optional sign, decimal digits
with optional fraction, optional decimal exponent.  Values are exact in `ℚ`
(IEEE rounding is immaterial to the parse-success/failure and integer-valued
facts proved here); the `inf`/`nan` spellings accepted by Python have no `ℚ`
counterpart and are outside the model. -/

/-- Numeric value of a single digit character. -/
def digit_val (c : Char) : ℕ := c.toNat - '0'.toNat

/-- Value of a digit run as a natural number. -/
def digits_val (ds : List Char) : ℕ :=
  ds.foldl (fun acc c => 10 * acc + digit_val c) 0

/-- Value of a digit run read as a fraction `0.d₁d₂…`. -/
def frac_val (ds : List Char) : ℚ :=
  (digits_val ds : ℚ) / (10 : ℚ) ^ ds.length

/-- Exponent suffix: empty, or `e`/`E` followed by an optionally signed
digit run. -/
def parse_exp_part : List Char → Option ℤ
  | [] => some 0
  | c :: cs =>
    if c = 'e' ∨ c = 'E' then
      match cs with
      | '+' :: ds =>
        if ds ≠ [] ∧ ds.all Char.isDigit then some (digits_val ds) else none
      | '-' :: ds =>
        if ds ≠ [] ∧ ds.all Char.isDigit then some (-(digits_val ds : ℤ)) else none
      | ds =>
        if ds ≠ [] ∧ ds.all Char.isDigit then some (digits_val ds) else none
    else none

/-- Unsigned mantissa with optional fraction and exponent. -/
def py_float_core (s : List Char) : Option ℚ :=
  let ds := s.takeWhile Char.isDigit
  let rest := s.dropWhile Char.isDigit
  match rest with
  | '.' :: r2 =>
    let fs := r2.takeWhile Char.isDigit
    let rest2 := r2.dropWhile Char.isDigit
    if ds.isEmpty ∧ fs.isEmpty then none
    else (parse_exp_part rest2).map
      (fun k => ((digits_val ds : ℚ) + frac_val fs) * (10 : ℚ) ^ k)
  | _ =>
    if ds.isEmpty then none
    else (parse_exp_part rest).map (fun k => (digits_val ds : ℚ) * (10 : ℚ) ^ k)

/-- Python `float(x)`: `none` models the `ValueError` raised on a
non-numeric string. -/
def py_float (s : List Char) : Option ℚ :=
  match trim_ws s with
  | [] => none
  | '+' :: r => py_float_core r
  | '-' :: r => (py_float_core r).map Neg.neg
  | r => py_float_core r

/-- Separator class of `re.split(r"[ ,]+", …)`. -/
def is_sep (c : Char) : Bool := c = ' ' ∨ c = ','

/-- Maximal runs of non-separator characters, i.e. the result of splitting on
`[ ,]+` and dropping empty pieces (the `if x` filter in the source). -/
def split_sep_runs (cs : List Char) : List (List Char) :=
  (cs.foldr
    (fun c acc =>
      if is_sep c then [] :: acc
      else
        match acc with
        | [] => [[c]]
        | g :: gs => (c :: g) :: gs)
    []).filter (fun g => ¬g.isEmpty)

/-- `args = [float(x) for x in re.split(r"[ ,]+", m.group(2).strip()) if x]`:
`none` models the `ValueError` raised by `float` on the first bad token. -/
def parse_args (a : List Char) : Option (List ℚ) :=
  (split_sep_runs (trim_ws a)).mapM py_float

/-- The matrix contributed by one matched token, following the three branches
of `_parse_transform_list`: outer `none` is a `float` conversion failure,
inner `none` is the silent skip of a `matrix(...)` token whose argument count
is not 6.  Missing `ty` defaults to `0`; missing `sy` defaults to `sx`. -/
def token_mats : TransformKind × List Char → Option (Option Affine)
  | (.tTranslate, a) =>
    (parse_args a).map (fun args =>
      some ⟨1, 0, 0, 1, args.getD 0 0, args.getD 1 0⟩)
  | (.tScale, a) =>
    (parse_args a).map (fun args =>
      let sx := args.getD 0 1
      some ⟨sx, 0, 0, args.getD 1 sx, 0, 0⟩)
  | (.tMatrix, a) =>
    (parse_args a).map (fun args =>
      match args with
      | [a1, b1, c1, d1, e1, f1] => some ⟨a1, b1, c1, d1, e1, f1⟩
      | _ => none)

/-- The final composition loop: `out = identity; for m in reversed(mats):
out = _affine_mul(m, out)`. -/
def compose_rtl (mats : List Affine) : Affine :=
  mats.reverse.foldl (fun out m => affine_mul m out) affine_identity

/-- `_parse_transform_list`: strip, empty means identity, scan tokens, build
the per-token matrices (propagating a `float` `ValueError`), compose right to
left. -/
def parse_transform_list (transform : String) : Except String Affine :=
  let t := trim_ws transform.toList
  if t.isEmpty then .ok affine_identity
  else
    match (scan_tokens t).foldlM
        (fun mats tok => (token_mats tok).map (fun om => mats ++ om.toList))
        ([] : List Affine) with
    | none => .error "ValueError: could not convert string to float"
    | some mats => .ok (compose_rtl mats)

/-- Parse a transform string and apply the resulting matrix to a point. -/
def apply_parsed (s : String) (p : Pt) : Except String Pt :=
  (parse_transform_list s).map (fun m => affine_apply m p)

/-! ## Theorems for C2 and C7 -/

/-- `_affine_mul` really is composition: applying `m1 ∘ m2` applies `m2`
first. -/
theorem affine_apply_mul (m1 m2 : Affine) (p : Pt) :
    affine_apply (affine_mul m1 m2) p = affine_apply m1 (affine_apply m2 p) := by
  apply Prod.ext <;> (simp only [affine_apply, affine_mul]; ring)

/-- The identity matrix is neutral under application. -/
theorem affine_apply_id (p : Pt) : affine_apply affine_identity p = p := by
  apply Prod.ext <;> (simp only [affine_apply, affine_identity]; ring)

/-- Peeling one matrix off the right-to-left composition. -/
theorem compose_rtl_cons (m : Affine) (ms : List Affine) :
    compose_rtl (m :: ms) = affine_mul m (compose_rtl ms) := by
  simp only [compose_rtl, List.reverse_cons, List.foldl_append, List.foldl_cons,
    List.foldl_nil]

/-- **C2**: transforms listed left-to-right are applied to a point right to
left (the composed matrix applies the last-listed matrix first), and
parsing `"translate(5,0) scale(2)"` then applying the result to `(1,1)`
gives `(7,2)`, which equals applying `scale(2)` first and `translate(5,0)`
second. -/
theorem c2_transform_semantics :
    (∀ (mats : List Affine) (p : Pt),
      affine_apply (compose_rtl mats) p =
        mats.foldr (fun m q => affine_apply m q) p) ∧
    apply_parsed "translate(5,0) scale(2)" (1, 1) = .ok (7, 2) ∧
    affine_apply ⟨1, 0, 0, 1, 5, 0⟩ (affine_apply ⟨2, 0, 0, 2, 0, 0⟩ (1, 1)) =
      (7, 2) := by
  refine ⟨?_, ?_, ?_⟩
  · intro mats p
    induction mats with
    | nil => exact affine_apply_id p
    | cons m ms ih => rw [compose_rtl_cons, affine_apply_mul, ih]; rfl
  · with_unfolding_all rfl
  · with_unfolding_all rfl

/-- `token_mats` succeeds exactly when the token's arguments all convert. -/
theorem token_mats_isSome (tok : TransformKind × List Char) :
    (token_mats tok).isSome = (parse_args tok.2).isSome := by
  obtain ⟨k, a⟩ := tok
  cases k <;> (cases hpa : parse_args a <;> simp [token_mats, hpa])

/-- The matrix-accumulation loop succeeds when every token's arguments
convert. -/
theorem token_fold_isSome (toks : List (TransformKind × List Char)) :
    ∀ acc : List Affine,
      (∀ tok ∈ toks, (parse_args tok.2).isSome = true) →
      (toks.foldlM
        (fun mats tok => (token_mats tok).map (fun om => mats ++ om.toList))
        acc).isSome = true := by
  induction toks with
  | nil => intro acc _; rfl
  | cons t ts ih =>
    intro acc h
    have ht : (token_mats t).isSome = true := by
      rw [token_mats_isSome]; exact h t (List.mem_cons_self t ts)
    obtain ⟨om, hom⟩ := Option.isSome_iff_exists.mp ht
    have step :
        (List.foldlM
          (fun mats tok => (token_mats tok).map (fun om => mats ++ om.toList))
          acc (t :: ts)) =
        (List.foldlM
          (fun mats tok => (token_mats tok).map (fun om => mats ++ om.toList))
          (acc ++ om.toList) ts) := by
      simp only [List.foldlM_cons, hom, Option.map_some']
      rfl
    rw [step]
    exact ih (acc ++ om.toList) (fun tok hm => h tok (List.mem_cons_of_mem t hm))

/-- **C7 counterexample**: the claim says the transform attribute parser
never fails, but `"translate(a)"` makes `float("a")` raise `ValueError`,
so the parse fails. -/
theorem c7_counterexample :
    (parse_transform_list "translate(a)").isOk = false := rfl

/-- **C7 (amended)**: the parse succeeds whenever every matched token's
arguments convert as floats — tokens the token grammar does not match are
skipped silently, a `matrix(...)` token with argument count ≠ 6 is skipped,
missing `ty` defaults to 0, missing `sy` defaults to `sx`, and empty or
all-whitespace input yields the identity — but a matched
`translate`/`scale`/`matrix` token containing a non-numeric argument makes
the parse fail with a `ValueError`, so the parser is not total. -/
theorem c7_lenient_parse :
    (∀ s : String,
      (∀ tok ∈ scan_tokens (trim_ws s.toList), (parse_args tok.2).isSome = true) →
      (parse_transform_list s).isOk = true) ∧
    parse_transform_list "" = .ok affine_identity ∧
    parse_transform_list "  " = .ok affine_identity ∧
    parse_transform_list "translate(3)" = parse_transform_list "translate(3,0)" ∧
    parse_transform_list "scale(2)" = parse_transform_list "scale(2,2)" ∧
    parse_transform_list "matrix(1,2,3)" = .ok affine_identity ∧
    parse_transform_list "rotate(30) translate(1)" =
      parse_transform_list "translate(1)" := by
  refine ⟨?_, by with_unfolding_all rfl, by with_unfolding_all rfl,
    by with_unfolding_all rfl, by with_unfolding_all rfl,
    by with_unfolding_all rfl, by with_unfolding_all rfl⟩
  intro s h
  simp only [parse_transform_list]
  by_cases he : (trim_ws s.toList).isEmpty = true
  · rw [if_pos he]; rfl
  · rw [if_neg he]
    obtain ⟨mats, hm⟩ :=
      Option.isSome_iff_exists.mp (token_fold_isSome (scan_tokens (trim_ws s.toList)) [] h)
    rw [hm]
    rfl

/-- Witness for C7 (amended) on `"scale(2) matrix(1,0,0,1,0,0)"`. -/
theorem c7_lenient_parse_witness :
    (∀ tok ∈ scan_tokens (trim_ws ("scale(2) matrix(1,0,0,1,0,0)" : String).toList),
      (parse_args tok.2).isSome = true) ∧
    (parse_transform_list "scale(2) matrix(1,0,0,1,0,0)").isOk = true :=
  ⟨by decide, c7_lenient_parse.1 "scale(2) matrix(1,0,0,1,0,0)" (by decide)⟩

/-! ## export_dxf.py: the exporter

The `ezdxf` document is modelled by the data the exporter writes into it:
the set of declared layer names and the modelspace entity list.  Saving the
document to disk and re-reading it (`doc.saveas` / `ezdxf.readfile`) is the
identity on this data. -/

/-- A modelspace entity as created by the exporter: a SPLINE built from fit
points or an LWPOLYLINE, each carrying its closure flag and layer. -/
inductive Entity where
  | spline (fit_points : List Pt) (closed : Bool) (layer : String)
  | lwpolyline (points : List Pt) (closed : Bool) (layer : String)
deriving DecidableEq

/-- `e.dxftype()`. -/
def Entity.dxftype : Entity → String
  | .spline _ _ _ => "SPLINE"
  | .lwpolyline _ _ _ => "LWPOLYLINE"

/-- `e.dxf.layer`. -/
def Entity.layer_of : Entity → String
  | .spline _ _ l => l
  | .lwpolyline _ _ l => l

/-- The drawing document: declared layers plus modelspace entities. -/
structure DocModel where
  layers : List String
  entities : List Entity
deriving DecidableEq

/-- `_almost_same` with `eps = 1e-6`. -/
def almost_same (a b : Pt) : Prop :=
  |a.1 - b.1| ≤ 1 / 1000000 ∧ |a.2 - b.2| ≤ 1 / 1000000

instance (a b : Pt) : Decidable (almost_same a b) := instDecidableAnd

/-- `_segment_to_points`: `"line"` gives the two endpoints, a
`"cubic_bezier"`/`"quad_bezier"` with matching point count is sampled, and
anything else falls back to first-and-last point.  `none` models the
`IndexError` Python raises on `seg.pts[0]` when `pts` is empty. -/
def segment_to_points (seg : PathSegment) (samples : ℕ) : Option (List Pt) :=
  if seg.kind = "line" then
    match seg.pts with
    | [] => none
    | p :: ps => some [p, List.getLast (p :: ps) (by simp)]
  else if seg.kind = "cubic_bezier" then
    match seg.pts with
    | [a, b, c, d] => some (sample_cubic_bezier a b c d samples)
    | [] => none
    | p :: ps => some [p, List.getLast (p :: ps) (by simp)]
  else if seg.kind = "quad_bezier" then
    match seg.pts with
    | [a, b, c] => some (sample_quad_bezier a b c samples)
    | [] => none
    | p :: ps => some [p, List.getLast (p :: ps) (by simp)]
  else
    match seg.pts with
    | [] => none
    | p :: ps => some [p, List.getLast (p :: ps) (by simp)]

/-- The boundary-point de-duplication when extending the point stream:
`pts.extend(seg_pts[1:])` when the last accumulated point almost equals the
segment's first sampled point, else `pts.extend(seg_pts)`. -/
def dedup_append (pts seg_pts : List Pt) : List Pt :=
  match pts, seg_pts with
  | [], _ => seg_pts
  | _, [] => pts
  | p :: ps, q :: qs =>
    if almost_same (List.getLast (p :: ps) (by simp)) q
    then (p :: ps) ++ qs
    else (p :: ps) ++ (q :: qs)

/-- Whether a segment kind is in `{"cubic_bezier", "quad_bezier"}`. -/
def curved_kind (k : String) : Bool :=
  k = "cubic_bezier" ∨ k = "quad_bezier"

/-- One iteration of the per-path segment loop: sample the segment, extend
the point stream with de-duplication, update the `has_curve` flag. -/
def build_step (samples : ℕ) (acc : List Pt × Bool) (seg : PathSegment) :
    Option (List Pt × Bool) :=
  (segment_to_points seg samples).map
    (fun seg_pts => (dedup_append acc.1 seg_pts, acc.2 || curved_kind seg.kind))

/-- The per-path point-stream loop of `export_paths_to_dxf`: accumulates
`(pts, has_curve)` over the segments. -/
def build_path_points (segs : List PathSegment) (samples : ℕ) :
    Option (List Pt × Bool) :=
  segs.foldlM (build_step samples) ([], false)

/-- `pts_mm = [(x * scale, y * scale) for (x, y) in pts]`. -/
def scaled_points (pts : List Pt) (scale : ℚ) : List Pt :=
  pts.map (fun q => (q.1 * scale, q.2 * scale))

/-- The per-path entity construction of `export_paths_to_dxf`: scale to mm,
skip when the point stream is empty, emit a SPLINE when splines are
preferred, a curve is present and at least 4 points were sampled, an
LWPOLYLINE otherwise.  The outer `Option` models the `IndexError` raised on
a segment with an empty point list. -/
def emit_path (vp : VectorPath) (scale : ℚ) (samples : ℕ) (prefer : Bool) :
    Option (Option Entity) :=
  (build_path_points vp.segments samples).map (fun pb =>
    if (scaled_points pb.1 scale).isEmpty then none
    else if prefer = true ∧ pb.2 = true ∧ 4 ≤ (scaled_points pb.1 scale).length then
      some (.spline (scaled_points pb.1 scale) vp.is_closed vp.layer)
    else
      some (.lwpolyline (scaled_points pb.1 scale) vp.is_closed vp.layer))

/-- The declared layer set
`{p.layer for p in paths} | {"OUTLINE", "HOLES", "REF"}`; the Python set is
modelled as a duplicate-free list (only membership is observable). -/
def export_layers (paths : List VectorPath) : List String :=
  ((paths.map (fun p => p.layer)) ++ ["OUTLINE", "HOLES", "REF"]).dedup

/-- One iteration of the per-path export loop: the path's entity (if any)
is appended to the modelspace entity list. -/
def export_step (scale : ℚ) (samples : ℕ) (prefer : Bool)
    (acc : List Entity) (vp : VectorPath) : Option (List Entity) :=
  (emit_path vp scale samples prefer).map (fun oe => acc ++ oe.toList)

/-- `export_paths_to_dxf`: reject non-positive scale before any document is
created, declare the layers, then run the per-path loop in order.
`Except.error` carries the `ValueError`/`IndexError` message. -/
def export_paths_to_dxf (paths : List VectorPath) (scale : ℚ)
    (bezier_samples : ℕ) (prefer_splines : Bool) : Except String DocModel :=
  if scale ≤ 0 then .error "scale must be > 0"
  else
    match paths.foldlM (export_step scale bezier_samples prefer_splines)
        ([] : List Entity) with
    | none => .error "IndexError"
    | some ents => .ok ⟨export_layers paths, ents⟩

/-! ## metrics.py -/

/-- The metrics record `DxfMetrics`. -/
structure DxfMetrics where
  num_entities : ℕ
  entities_by_type : List (String × ℕ)
  layers : List (String × ℕ)
  bbox_mm : ℚ × ℚ × ℚ × ℚ
deriving DecidableEq

/-- `d[k] = d.get(k, 0) + 1` on an insertion-ordered dict modelled as an
association list. -/
def bump_count (m : List (String × ℕ)) (k : String) : List (String × ℕ) :=
  if m.any (fun kv => kv.1 = k) then
    m.map (fun kv => if kv.1 = k then (kv.1, kv.2 + 1) else kv)
  else m ++ [(k, 1)]

/-- `_extract_points`: vertices of an LWPOLYLINE; fit points of a SPLINE
(the exporter always builds splines from fit points, so the control-point
fallback of the source is never reached on documents this exporter
produces). -/
def extract_points : Entity → List Pt
  | .spline fit _ _ => fit
  | .lwpolyline pts _ _ => pts

/-- The running min/max bounding-box state; `none` models the untouched
`±inf` sentinels. -/
def bbox_step (st : Option (ℚ × ℚ × ℚ × ℚ)) (p : Pt) : Option (ℚ × ℚ × ℚ × ℚ) :=
  match st with
  | none => some (p.1, p.2, p.1, p.2)
  | some (mnx, mny, mxx, mxy) =>
    some (min mnx p.1, min mny p.2, max mxx p.1, max mxy p.2)

/-- `compute_dxf_metrics` on a (re-read) document: entity count, per-type
and per-layer tallies, and the min/max bounding box over all extracted
points, all zeros when no geometry was seen. -/
def compute_dxf_metrics (doc : DocModel) : DxfMetrics :=
  let st := doc.entities.foldl
    (fun (st : (List (String × ℕ)) × (List (String × ℕ)) × Option (ℚ × ℚ × ℚ × ℚ)) e =>
      (bump_count st.1 e.dxftype,
       bump_count st.2.1 e.layer_of,
       (extract_points e).foldl bbox_step st.2.2))
    ([], [], none)
  { num_entities := doc.entities.length
    entities_by_type := st.1
    layers := st.2.1
    bbox_mm := match st.2.2 with
      | none => (0, 0, 0, 0)
      | some bb => bb }

/-! ## Theorems for C8, C10, C4, C5 -/

/-- **C8**: for every path list and every scale ≤ 0 the exporter rejects the
call with an error; in particular no drawing document is built (the model
returns no `DocModel` at all), so no I/O can happen. -/
theorem c8_nonpositive_scale (paths : List VectorPath) (scale : ℚ)
    (samples : ℕ) (prefer : Bool) (h : scale ≤ 0) :
    export_paths_to_dxf paths scale samples prefer = .error "scale must be > 0" := by
  simp only [export_paths_to_dxf, if_pos h]

/-- Witness for C8 at `scale = 0` on the empty path list. -/
theorem c8_nonpositive_scale_witness :
    (0 : ℚ) ≤ 0 ∧
    export_paths_to_dxf [] 0 16 true = .error "scale must be > 0" :=
  ⟨le_refl 0, c8_nonpositive_scale [] 0 16 true (le_refl 0)⟩

/-- The invariant of the `PathSegment` data model: the point count matches
the tag (2 for a line, 4 for a cubic, 3 for a quadratic Bezier). -/
def valid_segment (s : PathSegment) : Prop :=
  (s.kind = "line" ∧ s.pts.length = 2) ∨
  (s.kind = "cubic_bezier" ∧ s.pts.length = 4) ∨
  (s.kind = "quad_bezier" ∧ s.pts.length = 3)

instance (s : PathSegment) : Decidable (valid_segment s) := by
  unfold valid_segment; infer_instance

/-- A segment with a tag-matching point count always samples to at least two
points (and never raises). -/
theorem segment_to_points_some (s : PathSegment) (samples : ℕ)
    (hv : valid_segment s) (hs : 1 ≤ samples) :
    ∃ l, segment_to_points s samples = some l ∧ 2 ≤ l.length := by
  obtain ⟨k, pts⟩ := s
  rcases hv with ⟨hk, hl⟩ | ⟨hk, hl⟩ | ⟨hk, hl⟩ <;>
    simp only [PathSegment.kind, PathSegment.pts] at hk hl <;> subst hk
  · match pts, hl with
    | [a, b], _ => exact ⟨[a, b], rfl, by simp⟩
  · match pts, hl with
    | [a, b, c, d], _ =>
      refine ⟨sample_cubic_bezier a b c d samples, rfl, ?_⟩
      simp only [sample_cubic_bezier, List.length_map, List.length_range]
      omega
  · match pts, hl with
    | [a, b, c], _ =>
      refine ⟨sample_quad_bezier a b c samples, rfl, ?_⟩
      simp only [sample_quad_bezier, List.length_map, List.length_range]
      omega

/-- Extending the point stream never shrinks it. -/
theorem dedup_append_length (pts sp : List Pt) :
    pts.length ≤ (dedup_append pts sp).length := by
  cases pts with
  | nil => simp [dedup_append]
  | cons p ps =>
    cases sp with
    | nil => simp [dedup_append]
    | cons q qs =>
      simp only [dedup_append]
      split <;> simp

/-- The segment loop succeeds on valid segments and never shrinks the
accumulated point stream. -/
theorem build_fold_mono (samples : ℕ) (hs : 1 ≤ samples) :
    ∀ (segs : List PathSegment) (acc : List Pt × Bool),
      (∀ s ∈ segs, valid_segment s) →
      ∃ pts hc, segs.foldlM (build_step samples) acc = some (pts, hc) ∧
        acc.1.length ≤ pts.length := by
  intro segs
  induction segs with
  | nil => exact fun acc _ => ⟨acc.1, acc.2, rfl, le_refl _⟩
  | cons s rest ih =>
    intro acc h
    obtain ⟨sp, hsp, _⟩ :=
      segment_to_points_some s samples (h s (List.mem_cons_self s rest)) hs
    obtain ⟨pts, hc, hfold, hlen⟩ :=
      ih (dedup_append acc.1 sp, acc.2 || curved_kind s.kind)
        (fun t ht => h t (List.mem_cons_of_mem s ht))
    refine ⟨pts, hc, ?_, le_trans (dedup_append_length acc.1 sp) hlen⟩
    rw [List.foldlM_cons]
    have hstep : build_step samples acc s =
        some (dedup_append acc.1 sp, acc.2 || curved_kind s.kind) := by
      simp only [build_step, hsp, Option.map_some']
    rw [hstep]
    exact hfold

/-- The `has_curve` flag computed by the segment loop is the disjunction of
the segment-kind tests, whatever the fold was seeded with. -/
theorem build_fold_hc (samples : ℕ) :
    ∀ (segs : List PathSegment) (acc : List Pt × Bool) (pts : List Pt) (hc : Bool),
      segs.foldlM (build_step samples) acc = some (pts, hc) →
      hc = (acc.2 || segs.any (fun s => curved_kind s.kind)) := by
  intro segs
  induction segs with
  | nil =>
    intro acc pts hc h
    injection h with h'
    simp [h']
  | cons s rest ih =>
    intro acc pts hc h
    rw [List.foldlM_cons] at h
    cases hsp : segment_to_points s samples with
    | none => rw [build_step, hsp] at h; simp at h
    | some sp =>
      rw [build_step, hsp] at h
      simp only [Option.map_some'] at h
      have := ih (dedup_append acc.1 sp, acc.2 || curved_kind s.kind) pts hc h
      rw [this]
      simp [Bool.or_assoc]

/-- The full per-path point stream: success on valid segments, empty exactly
for the empty segment list. -/
theorem build_path_points_spec (segs : List PathSegment) (samples : ℕ)
    (hv : ∀ s ∈ segs, valid_segment s) (hs : 1 ≤ samples) :
    ∃ pts hc, build_path_points segs samples = some (pts, hc) ∧
      (segs = [] → pts = []) ∧ (segs ≠ [] → 1 ≤ pts.length) := by
  cases segs with
  | nil => exact ⟨[], false, rfl, fun _ => rfl, fun hne => absurd rfl hne⟩
  | cons s rest =>
    obtain ⟨sp, hsp, hsp2⟩ :=
      segment_to_points_some s samples (hv s (List.mem_cons_self s rest)) hs
    obtain ⟨pts, hc, hfold, hlen⟩ :=
      build_fold_mono samples hs rest (dedup_append [] sp, false || curved_kind s.kind)
        (fun t ht => hv t (List.mem_cons_of_mem s ht))
    refine ⟨pts, hc, ?_, fun hcon => List.noConfusion hcon, fun _ => ?_⟩
    · rw [build_path_points, List.foldlM_cons]
      have hstep : build_step samples ([], false) s =
          some (dedup_append [] sp, false || curved_kind s.kind) := by
        simp only [build_step, hsp, Option.map_some']
      rw [hstep]
      exact hfold
    · have hlen' : sp.length ≤ pts.length := by
        simpa [dedup_append] using hlen
      omega

/-- The per-path exporter step on valid segments: one entity for a path with
segments, none for a path without. -/
theorem emit_path_count (vp : VectorPath) (scale : ℚ) (samples : ℕ)
    (prefer : Bool) (hv : ∀ s ∈ vp.segments, valid_segment s) (hs : 1 ≤ samples) :
    ∃ oe, emit_path vp scale samples prefer = some oe ∧
      oe.toList.length = (if vp.segments = [] then 0 else 1) := by
  obtain ⟨pts, hc, hb, hemp, hne⟩ := build_path_points_spec vp.segments samples hv hs
  by_cases hseg : vp.segments = []
  · refine ⟨none, ?_, by simp [hseg]⟩
    rw [emit_path, hb, Option.map_some']
    have : pts = [] := hemp hseg
    subst this
    rfl
  · have hlen : 1 ≤ pts.length := hne hseg
    have hmm : (scaled_points pts scale).isEmpty = false := by
      cases pts with
      | nil => simp at hlen
      | cons a l => simp [scaled_points]
    rw [emit_path, hb, Option.map_some']
    refine ⟨_, rfl, ?_⟩
    simp only [hmm, Bool.false_eq_true, if_false, if_neg hseg]
    split <;> rfl

/-- The export loop on valid paths: it succeeds and appends exactly one
entity per path with a non-empty segment list. -/
theorem export_fold_count (scale : ℚ) (samples : ℕ) (prefer : Bool)
    (hs : 1 ≤ samples) :
    ∀ (paths : List VectorPath) (acc : List Entity),
      (∀ vp ∈ paths, ∀ s ∈ vp.segments, valid_segment s) →
      ∃ ents, paths.foldlM (export_step scale samples prefer) acc = some ents ∧
        ents.length = acc.length +
          (paths.filter (fun vp => !vp.segments.isEmpty)).length := by
  intro paths
  induction paths with
  | nil => exact fun acc _ => ⟨acc, rfl, by simp⟩
  | cons vp rest ih =>
    intro acc h
    obtain ⟨oe, hoe, hoelen⟩ :=
      emit_path_count vp scale samples prefer (h vp (List.mem_cons_self vp rest)) hs
    obtain ⟨ents, hfold, hlen⟩ :=
      ih (acc ++ oe.toList) (fun t ht => h t (List.mem_cons_of_mem vp ht))
    refine ⟨ents, ?_, ?_⟩
    · rw [List.foldlM_cons]
      have hstep : export_step scale samples prefer acc vp = some (acc ++ oe.toList) := by
        simp only [export_step, hoe, Option.map_some']
      rw [hstep]
      exact hfold
    · rw [hlen, List.length_append, hoelen, List.filter_cons]
      by_cases hseg : vp.segments = []
      · simp [hseg]
      · have : vp.segments.isEmpty = false := by
          cases hseg' : vp.segments with
          | nil => exact absurd hseg' hseg
          | cons a l => rfl
        simp [this, if_neg hseg]
        omega

/-- **C10**: for every positive scale, sample count ≥ 1 and path list whose
segments all satisfy the point-count invariant, the export succeeds and
emits exactly one entity per path with a non-empty segment list — paths with
empty segment lists are skipped, everything else produces exactly one
entity. -/
theorem c10_one_entity_per_path (paths : List VectorPath) (scale : ℚ)
    (samples : ℕ) (prefer : Bool) (hscale : 0 < scale) (hs : 1 ≤ samples)
    (hv : ∀ vp ∈ paths, ∀ s ∈ vp.segments, valid_segment s) :
    ∃ doc, export_paths_to_dxf paths scale samples prefer = .ok doc ∧
      doc.entities.length =
        (paths.filter (fun vp => !vp.segments.isEmpty)).length := by
  obtain ⟨ents, hfold, hlen⟩ := export_fold_count scale samples prefer hs paths [] hv
  refine ⟨⟨export_layers paths, ents⟩, ?_, by simpa using hlen⟩
  rw [export_paths_to_dxf, if_neg (not_le.mpr hscale), hfold]

/-- Witness for C10: two paths, one with a line segment and one with no
segments; exactly one entity is emitted. -/
theorem c10_one_entity_per_path_witness :
    (0 : ℚ) < 1 ∧ (1 ≤ 16) ∧
    (∃ doc,
      export_paths_to_dxf
        [⟨[⟨"line", [(0, 0), (1, 0)]⟩], false, "OUTLINE"⟩, ⟨[], false, "REF"⟩]
        1 16 true = .ok doc ∧
      doc.entities.length =
        (([⟨[⟨"line", [(0, 0), (1, 0)]⟩], false, "OUTLINE"⟩,
           ⟨[], false, "REF"⟩] : List VectorPath).filter
          (fun vp => !vp.segments.isEmpty)).length) :=
  ⟨by decide, by decide,
   c10_one_entity_per_path _ 1 16 true (by decide) (by decide) (by decide)⟩

/-- **C4**: for every path whose segments satisfy the point-count invariant
and sample count ≥ 1: the `has_curve` flag holds exactly when some segment
is curved; when the curve-preference flag is on, a curve is present and the
sampled stream has at least 4 points, the exporter emits a SPLINE carrying
the sampled points as fit points with the path's closed flag; in every
other case with a non-empty stream it emits an LWPOLYLINE with the same
closure flag; and every emitted entity carries the path's layer. -/
theorem c4_entity_choice (vp : VectorPath) (scale : ℚ) (samples : ℕ)
    (prefer : Bool) (hv : ∀ s ∈ vp.segments, valid_segment s) (hs : 1 ≤ samples) :
    ∃ pts hc, build_path_points vp.segments samples = some (pts, hc) ∧
      (hc = true ↔ ∃ s ∈ vp.segments, curved_kind s.kind = true) ∧
      (prefer = true ∧ hc = true ∧ 4 ≤ (scaled_points pts scale).length →
        emit_path vp scale samples prefer =
          some (some (.spline (scaled_points pts scale) vp.is_closed vp.layer))) ∧
      (scaled_points pts scale ≠ [] →
        ¬(prefer = true ∧ hc = true ∧ 4 ≤ (scaled_points pts scale).length) →
        emit_path vp scale samples prefer =
          some (some (.lwpolyline (scaled_points pts scale) vp.is_closed vp.layer))) ∧
      (∀ e, emit_path vp scale samples prefer = some (some e) →
        e.layer_of = vp.layer) := by
  obtain ⟨pts, hc, hb, _, _⟩ := build_path_points_spec vp.segments samples hv hs
  have hcform : hc = (false || vp.segments.any (fun s => curved_kind s.kind)) :=
    build_fold_hc samples vp.segments ([], false) pts hc hb
  refine ⟨pts, hc, hb, ?_, ?_, ?_, ?_⟩
  · rw [hcform]
    simp [List.any_eq_true]
  · rintro ⟨hp, hcc, h4⟩
    have hne : (scaled_points pts scale).isEmpty = false := by
      cases hsp : scaled_points pts scale with
      | nil => rw [hsp] at h4; simp at h4
      | cons a l => rfl
    rw [emit_path, hb, Option.map_some']
    rw [if_neg (by rw [hne]; exact Bool.false_ne_true)]
    rw [if_pos ⟨hp, hcc, h4⟩]
  · intro hnil hnot
    have hne : (scaled_points pts scale).isEmpty = false := by
      cases hsp : scaled_points pts scale with
      | nil => exact absurd hsp hnil
      | cons a l => rfl
    rw [emit_path, hb, Option.map_some']
    rw [if_neg (by rw [hne]; exact Bool.false_ne_true)]
    rw [if_neg hnot]
  · intro e he
    rw [emit_path, hb, Option.map_some'] at he
    split at he
    · simp at he
    · split at he <;>
        (injection he with he1; injection he1 with he2; rw [← he2]; rfl)

/-- An example path with one cubic segment, used as the C4 witness input. -/
def c4_example_path : VectorPath :=
  ⟨[⟨"cubic_bezier", [(0, 0), (0, 0), (0, 0), (0, 0)]⟩], true, "OUTLINE"⟩

/-- Witness for C4 on a one-cubic-segment closed path with `samples = 3`. -/
theorem c4_entity_choice_witness :
    ∃ pts hc, build_path_points c4_example_path.segments 3 = some (pts, hc) ∧
      (hc = true ↔ ∃ s ∈ c4_example_path.segments, curved_kind s.kind = true) ∧
      (true = true ∧ hc = true ∧ 4 ≤ (scaled_points pts 1).length →
        emit_path c4_example_path 1 3 true =
          some (some (.spline (scaled_points pts 1) c4_example_path.is_closed
            c4_example_path.layer))) ∧
      (scaled_points pts 1 ≠ [] →
        ¬(true = true ∧ hc = true ∧ 4 ≤ (scaled_points pts 1).length) →
        emit_path c4_example_path 1 3 true =
          some (some (.lwpolyline (scaled_points pts 1) c4_example_path.is_closed
            c4_example_path.layer))) ∧
      (∀ e, emit_path c4_example_path 1 3 true = some (some e) →
        e.layer_of = c4_example_path.layer) :=
  c4_entity_choice c4_example_path 1 3 true (by decide) (by decide)

/-- **C5**: exporting the empty path list yields a document declaring the
OUTLINE/HOLES/REF layers on which the metrics computation reports zero
entities and an all-zero bounding box; and every successful export declares
at least {OUTLINE, HOLES, REF} plus every layer named by an input path. -/
theorem c5_layers_and_empty_metrics :
    (∃ doc, export_paths_to_dxf [] 1 16 true = .ok doc ∧
      "OUTLINE" ∈ doc.layers ∧ "HOLES" ∈ doc.layers ∧ "REF" ∈ doc.layers ∧
      (compute_dxf_metrics doc).num_entities = 0 ∧
      (compute_dxf_metrics doc).bbox_mm = (0, 0, 0, 0)) ∧
    (∀ (paths : List VectorPath) (scale : ℚ) (samples : ℕ) (prefer : Bool)
        (doc : DocModel),
      export_paths_to_dxf paths scale samples prefer = .ok doc →
      ("OUTLINE" ∈ doc.layers ∧ "HOLES" ∈ doc.layers ∧ "REF" ∈ doc.layers ∧
        ∀ vp ∈ paths, vp.layer ∈ doc.layers)) := by
  constructor
  · exact ⟨⟨["OUTLINE", "HOLES", "REF"], []⟩, by decide, by decide, by decide,
      by decide, rfl, rfl⟩
  · intro paths scale samples prefer doc h
    have hlay : doc.layers = export_layers paths := by
      by_cases hsc : scale ≤ 0
      · rw [export_paths_to_dxf, if_pos hsc] at h
        exact Except.noConfusion h
      · rw [export_paths_to_dxf, if_neg hsc] at h
        cases hfold : paths.foldlM (export_step scale samples prefer) [] with
        | none => rw [hfold] at h; exact Except.noConfusion h
        | some ents =>
          rw [hfold] at h
          injection h with h'
          rw [← h']
    rw [hlay]
    refine ⟨?_, ?_, ?_, ?_⟩
    · simp [export_layers]
    · simp [export_layers]
    · simp [export_layers]
    · intro vp hvp
      simp only [export_layers, List.mem_dedup, List.mem_append, List.mem_map]
      exact Or.inl ⟨vp, hvp, rfl⟩

/-! ## contours.py: mask splitting

An 8-bit single-channel image is a row-major grid of intensities
(`List (List ℕ)`); out-of-range reads default to 0.  The OpenCV idiom
`contours = findContours(RETR_EXTERNAL); for c in contours: if
contourArea(c) ≥ min_area: drawContours(FILLED)` is modelled as: take the
top-level 8-connected foreground components (the components adjacent to the
border-connected background region, as the hierarchy-free `RETR_EXTERNAL`
retrieval returns), keep those of sufficient area, and fill each kept
component together with the background regions it encloses (a `FILLED`
external contour paints over interior holes).  `cv2.contourArea` — the
polygon area of the traced boundary — is modelled by the component's pixel
count; the concrete grids in this file use solid rectangles, for which both
measures fall on the same side of every threshold compared against. -/

/-- An 8-bit image: row-major grid of intensities. -/
abbrev Grid := List (List ℕ)

/-- Pixel read with 0 (background) out-of-range default. -/
def grid_get (g : Grid) (r c : ℕ) : ℕ := (g.getD r []).getD c 0

/-- All coordinates of a grid, row-major. -/
def coords (g : Grid) : List (ℕ × ℕ) :=
  ((List.range g.length).map
    (fun r => (List.range ((g.getD r []).length)).map (fun c => (r, c)))).flatten

/-- Rebuild a grid of the same shape from a per-coordinate intensity. -/
def map_coords (g : Grid) (f : ℕ → ℕ → ℕ) : Grid :=
  (List.range g.length).map
    (fun r => (List.range ((g.getD r []).length)).map (fun c => f r c))

/-- The all-zero (all-background) grid of the given dimensions. -/
def zero_grid (h w : ℕ) : Grid := List.replicate h (List.replicate w 0)

/-- `cv2.bitwise_not` on uint8: `255 - v`. -/
def bw_not (g : Grid) : Grid := g.map (fun row => row.map (fun v => 255 - v))

/-- `cv2.bitwise_and`: pointwise bitwise AND (shape of the first input). -/
def bw_and (a b : Grid) : Grid :=
  map_coords a (fun r c => Nat.land (grid_get a r c) (grid_get b r c))

/-- `cv2.bitwise_and(g, g, mask=m)`: keep `g` where the mask is set, else 0. -/
def mask_where (g mask : Grid) : Grid :=
  map_coords g (fun r c => if grid_get mask r c ≠ 0 then grid_get g r c else 0)

/-- `cv2.inRange(g, lo, hi)`. -/
def in_range_mask (g : Grid) (lo hi : ℕ) : Grid :=
  map_coords g (fun r c =>
    if lo ≤ grid_get g r c ∧ grid_get g r c ≤ hi then 255 else 0)

/-- `cv2.threshold(g, t, 255, THRESH_BINARY)`: `v > t ↦ 255`, else 0. -/
def threshold_binary (g : Grid) (t : ℕ) : Grid :=
  map_coords g (fun r c => if t < grid_get g r c then 255 else 0)

/-- `g.max()` (0 on an empty grid). -/
def grid_max (g : Grid) : ℕ := (g.map (fun row => row.foldl max 0)).foldl max 0

/-- Foreground (non-zero) coordinates. -/
def fg_coords (g : Grid) : List (ℕ × ℕ) :=
  (coords g).filter (fun p => decide (grid_get g p.1 p.2 ≠ 0))

/-- 8-neighbourhood (clipped at the 0 edges; right/bottom overshoot is
harmless because reads default to background). -/
def nbrs8 (p : ℕ × ℕ) : List (ℕ × ℕ) :=
  let rs := if p.1 = 0 then [p.1, p.1 + 1] else [p.1 - 1, p.1, p.1 + 1]
  let cs := if p.2 = 0 then [p.2, p.2 + 1] else [p.2 - 1, p.2, p.2 + 1]
  ((rs.map (fun r => cs.map (fun c => (r, c)))).flatten).filter
    (fun q => decide (q ≠ p))

/-- 4-neighbourhood. -/
def nbrs4 (p : ℕ × ℕ) : List (ℕ × ℕ) :=
  (if p.1 = 0 then [] else [(p.1 - 1, p.2)]) ++ [(p.1 + 1, p.2)] ++
  (if p.2 = 0 then [] else [(p.1, p.2 - 1)]) ++ [(p.1, p.2 + 1)]

/-- Fuelled breadth-first region growth inside a coordinate universe. -/
def grow_region (inside : List (ℕ × ℕ)) (nb : (ℕ × ℕ) → List (ℕ × ℕ)) :
    ℕ → List (ℕ × ℕ) → List (ℕ × ℕ) → List (ℕ × ℕ)
  | 0, visited, _ => visited
  | _ + 1, visited, [] => visited
  | fuel + 1, visited, frontier =>
    let nxt := (((frontier.map nb).flatten).filter
      (fun q => decide (q ∈ inside ∧ q ∉ visited))).dedup
    grow_region inside nb fuel (visited ++ nxt) nxt

/-- The connected region of a seed inside a coordinate universe. -/
def component_from (inside : List (ℕ × ℕ)) (nb : (ℕ × ℕ) → List (ℕ × ℕ))
    (s : ℕ × ℕ) : List (ℕ × ℕ) :=
  grow_region inside nb inside.length [s] [s]

/-- The 8-connected foreground components of a grid, in raster order of
their first pixels. -/
def components8 (g : Grid) : List (List (ℕ × ℕ)) :=
  ((fg_coords g).foldl
    (fun (st : List (List (ℕ × ℕ)) × List (ℕ × ℕ)) p =>
      if p ∈ st.2 then st
      else
        let comp := component_from (fg_coords g) nbrs8 p
        (st.1 ++ [comp], st.2 ++ comp))
    ([], [])).1

/-- Coordinates on the image border. -/
def is_on_border (g : Grid) (p : ℕ × ℕ) : Bool :=
  p.1 = 0 ∨ p.1 + 1 = g.length ∨ p.2 = 0 ∨ p.2 + 1 = (g.getD p.1 []).length

/-- Background coordinates. -/
def bg_coords (g : Grid) : List (ℕ × ℕ) :=
  (coords g).filter (fun p => decide (grid_get g p.1 p.2 = 0))

/-- The background region 4-connected to the image border (the region whose
adjacent components `RETR_EXTERNAL` retrieves). -/
def outside_bg (g : Grid) : List (ℕ × ℕ) :=
  let seeds := (bg_coords g).filter (is_on_border g)
  grow_region (bg_coords g) nbrs4 (coords g).length seeds seeds

/-- Fill of one external contour: everything except the background
4-connected to the border around the component (so interior holes are
painted over, as `drawContours(…, FILLED)` does). -/
def fill_component (g : Grid) (comp : List (ℕ × ℕ)) : List (ℕ × ℕ) :=
  let free := (coords g).filter (fun p => decide (p ∉ comp))
  let seeds := free.filter (is_on_border g)
  let outside := grow_region free nbrs4 (coords g).length seeds seeds
  (coords g).filter (fun p => decide (p ∉ outside))

/-- `_cleanup_mask` (and the verbatim-identical inline outer-mask block of
`split_outer_holes_masks`): keep the external components of area at least
`min_area` and draw them filled onto a fresh canvas. -/
def cleanup_mask (mask : Grid) (min_area : ℕ) : Grid :=
  let outside := outside_bg mask
  let comps := (components8 mask).filter
    (fun comp => comp.any
      (fun p => is_on_border mask p || (nbrs8 p).any (fun q => decide (q ∈ outside))))
  let kept := comps.filter (fun comp => decide (min_area ≤ comp.length))
  let filled := kept.map (fill_component mask)
  map_coords mask
    (fun r c => if filled.any (fun f => decide ((r, c) ∈ f)) then 255 else 0)

/-- `vals = gray[outer > 0]`. -/
def vals_inside (gray outer : Grid) : List ℕ :=
  ((coords outer).filter (fun p => decide (0 < grid_get outer p.1 p.2))).map
    (fun p => grid_get gray p.1 p.2)

/-- `cv2.threshold(…, THRESH_OTSU)` threshold selection, the
`getThreshVal_Otsu_8u` loop in exact arithmetic.  The cv2 loop tracks
`q1 = P1/N`, `mu1 = S1/P1`, `mu2 = (S - S1)/(N - P1)` (with `P1`, `S1` the
histogram prefix count and prefix intensity sum, `N`, `S` the totals), skips
a candidate when either class is empty (the exact counterpart of its
`FLT_EPSILON` guard), and keeps the first candidate whose between-class
variance `σ = q1·q2·(mu1 - mu2)²` is strictly larger than the running
maximum.  Exactly,
`σ(i) = (S1·(N - P1) - (S - S1)·P1)² / (N² · P1 · (N - P1))`,
so the strict comparison of the positive fractions is done here by
cross-multiplying the integer numerators `D²` and denominators
`P1·(N - P1)` (the constant `N²` cancels).  OpenCV runs this in `double`;
the concrete histograms in this file have a unique, well-separated
maximiser, on which exact and floating evaluation agree. -/
def otsu_threshold (g : Grid) : ℕ :=
  let cells := g.flatten
  let n : ℕ := cells.length
  let hist := (List.range 256).map
    (fun i => (cells.filter (fun v => decide (v = i))).length)
  let stotal : ℕ := ((List.range 256).map (fun i => i * hist.getD i 0)).sum
  ((List.range 256).foldl
    (fun (st : ℕ × ℕ × ℕ × ℕ × ℕ) i =>
      let p1 := st.1 + hist.getD i 0
      let s1 := st.2.1 + i * hist.getD i 0
      if p1 = 0 ∨ p1 = n then (p1, s1, st.2.2)
      else
        let d : ℤ := (s1 : ℤ) * ((n : ℤ) - (p1 : ℤ)) -
          ((stotal : ℤ) - (s1 : ℤ)) * (p1 : ℤ)
        let num := d.natAbs ^ 2
        let den := p1 * (n - p1)
        if st.2.2.1 * den < num * st.2.2.2.1 then (p1, s1, num, den, i)
        else (p1, s1, st.2.2))
    (0, 0, 0, 1, 0)).2.2.2.2

/-- `split_outer_holes_masks`: outer mask from the area-filtered external
contours of the ink; holes from `outer ∧ ¬binary` when no grayscale is
given or when fewer than 50 pixels lie inside the outer mask, otherwise
from an Otsu threshold of the grayscale masked to the outer region (keeping
the brighter cluster), with a fixed `[200, 255]` cutoff as last resort when
Otsu yields an empty mask; every holes candidate is passed through
`_cleanup_mask` with the same `min_area` used for the outer mask. -/
def split_outer_holes_masks (binary : Grid) (gray : Option Grid)
    (min_area : ℕ) : Grid × Grid :=
  let outer := cleanup_mask binary min_area
  match gray with
  | none => (outer, cleanup_mask (bw_and outer (bw_not binary)) min_area)
  | some gray =>
    if (vals_inside gray outer).length < 50 then
      (outer, cleanup_mask (bw_and outer (bw_not binary)) min_area)
    else
      let masked := mask_where gray outer
      let holes := cleanup_mask
        (bw_and (threshold_binary masked (otsu_threshold masked)) outer) min_area
      if grid_max holes = 0 then
        (outer, cleanup_mask (bw_and (in_range_mask masked 200 255) outer) min_area)
      else (outer, holes)

/-! ## Theorems for C3 and C9 -/

/-- `getD` on a replicated list. -/
theorem getD_replicate {α : Type} (n : ℕ) (a d : α) :
    ∀ i : ℕ, (List.replicate n a).getD i d = if i < n then a else d := by
  induction n with
  | zero => intro i; simp
  | succ n ih =>
    intro i
    cases i with
    | zero => simp [List.replicate_succ]
    | succ j =>
      rw [List.replicate_succ]
      simpa [Nat.succ_lt_succ_iff] using ih j

/-- Every read of the all-background grid is background. -/
theorem grid_get_zero (h w r c : ℕ) : grid_get (zero_grid h w) r c = 0 := by
  unfold grid_get zero_grid
  rw [getD_replicate]
  split
  · rw [getD_replicate]; split <;> rfl
  · simp

/-- A constant map over `range` is `replicate`. -/
theorem map_const_range {α : Type} (n : ℕ) (x : α) :
    (List.range n).map (fun _ => x) = List.replicate n x := by
  induction n with
  | zero => rfl
  | succ n ih =>
    rw [List.range_succ, List.map_append, ih, List.map_cons, List.map_nil,
      ← List.replicate_succ']

/-- Rebuilding the zero grid from an everywhere-zero intensity is the zero
grid. -/
theorem map_coords_zero (h w : ℕ) (f : ℕ → ℕ → ℕ) (hf : ∀ r c, f r c = 0) :
    map_coords (zero_grid h w) f = zero_grid h w := by
  unfold map_coords zero_grid
  rw [List.length_replicate]
  have hrow : ∀ r ∈ List.range h,
      (List.range (((List.replicate h (List.replicate w (0 : ℕ))).getD r []).length)).map
          (fun c => f r c) =
        List.replicate w 0 := by
    intro r hr
    rw [getD_replicate, if_pos (List.mem_range.mp hr), List.length_replicate]
    calc (List.range w).map (fun c => f r c)
        = (List.range w).map (fun _ => (0 : ℕ)) :=
          List.map_congr_left (fun c _ => hf r c)
      _ = List.replicate w 0 := map_const_range w 0
  rw [List.map_congr_left hrow, map_const_range]

/-- The all-background grid has no foreground pixels. -/
theorem fg_coords_zero (h w : ℕ) : fg_coords (zero_grid h w) = [] := by
  unfold fg_coords
  rw [List.filter_eq_nil_iff]
  intro p _
  simp [grid_get_zero]

/-- The all-background grid has no components. -/
theorem components8_zero (h w : ℕ) : components8 (zero_grid h w) = [] := by
  unfold components8
  rw [fg_coords_zero]
  rfl

/-- Cleaning the all-background mask returns it unchanged. -/
theorem cleanup_mask_zero (h w m : ℕ) :
    cleanup_mask (zero_grid h w) m = zero_grid h w := by
  simp only [cleanup_mask, components8_zero, List.filter_nil, List.map_nil,
    List.any_nil, Bool.false_eq_true, if_false]
  exact map_coords_zero h w _ (fun r c => rfl)

/-- ANDing anything onto the all-background grid stays background. -/
theorem bw_and_zero_left (h w : ℕ) (b : Grid) :
    bw_and (zero_grid h w) b = zero_grid h w := by
  unfold bw_and
  apply map_coords_zero
  intro r c
  rw [grid_get_zero]
  exact Nat.zero_and _

/-- No pixels are sampled inside an empty outer mask. -/
theorem vals_inside_zero (gray : Grid) (h w : ℕ) :
    vals_inside gray (zero_grid h w) = [] := by
  unfold vals_inside
  rw [List.filter_eq_nil_iff.mpr, List.map_nil]
  intro p _
  simp [grid_get_zero]

/-- **C9**: an all-background input mask yields empty outer and holes masks
of the input's dimensions, with or without a grayscale image, and no error;
and a mask whose only region is below the area threshold (zero surviving
regions) also yields two empty masks. -/
theorem c9_empty_mask_split :
    (∀ (h w : ℕ) (gray : Option Grid) (min_area : ℕ),
      split_outer_holes_masks (zero_grid h w) gray min_area =
        (zero_grid h w, zero_grid h w)) ∧
    split_outer_holes_masks [[0, 0, 0], [0, 255, 0], [0, 0, 0]]
      (some [[10, 10, 10], [10, 200, 10], [10, 10, 10]]) 80 =
      (zero_grid 3 3, zero_grid 3 3) := by
  constructor
  · intro h w gray m
    cases gray with
    | none =>
      simp only [split_outer_holes_masks]
      rw [cleanup_mask_zero, bw_and_zero_left, cleanup_mask_zero]
    | some g =>
      simp only [split_outer_holes_masks]
      rw [cleanup_mask_zero, vals_inside_zero,
        if_pos (by norm_num : ([] : List ℕ).length < 50),
        bw_and_zero_left, cleanup_mask_zero]
  · decide

/-- **C3 (amended)**: with a grayscale image supplied, the outer mask is the
area-filtered ink mask; the `outer ∧ ¬binary` candidate is used when fewer
than 50 pixels lie inside the outer mask, and otherwise the Otsu candidate
(threshold computed on the grayscale masked to the outer region, brighter
cluster kept, intersected with outer) is used, with the fixed `[200, 255]`
cutoff as last resort when the Otsu candidate comes out empty; every
candidate passes through `_cleanup_mask` with the same `min_area` as the
outer mask. -/
theorem c3_split_structure :
    (∀ (binary gray : Grid) (min_area : ℕ),
      (split_outer_holes_masks binary (some gray) min_area).1 =
        cleanup_mask binary min_area) ∧
    (∀ (binary gray : Grid) (min_area : ℕ),
      (vals_inside gray (cleanup_mask binary min_area)).length < 50 →
      (split_outer_holes_masks binary (some gray) min_area).2 =
        cleanup_mask (bw_and (cleanup_mask binary min_area) (bw_not binary))
          min_area) ∧
    (∀ (binary gray : Grid) (min_area : ℕ),
      50 ≤ (vals_inside gray (cleanup_mask binary min_area)).length →
      (split_outer_holes_masks binary (some gray) min_area).2 =
        (let masked := mask_where gray (cleanup_mask binary min_area)
         let holes := cleanup_mask
           (bw_and (threshold_binary masked (otsu_threshold masked))
             (cleanup_mask binary min_area)) min_area
         if grid_max holes = 0 then
           cleanup_mask (bw_and (in_range_mask masked 200 255)
             (cleanup_mask binary min_area)) min_area
         else holes)) := by
  refine ⟨?_, ?_, ?_⟩
  · intro binary gray m
    simp only [split_outer_holes_masks]
    split
    · rfl
    · split <;> rfl
  · intro binary gray m hlt
    simp only [split_outer_holes_masks]
    rw [if_pos hlt]
  · intro binary gray m hge
    simp only [split_outer_holes_masks]
    rw [if_neg (not_lt.mpr hge)]
    split <;> rfl

/-- Witness for C3 (amended), taking the under-50 branch on a 2×2
all-background pair. -/
theorem c3_split_structure_witness :
    (vals_inside (zero_grid 2 2) (cleanup_mask (zero_grid 2 2) 80)).length < 50 ∧
    (split_outer_holes_masks (zero_grid 2 2) (some (zero_grid 2 2)) 80).2 =
      cleanup_mask (bw_and (cleanup_mask (zero_grid 2 2) 80)
        (bw_not (zero_grid 2 2))) 80 :=
  ⟨by decide, c3_split_structure.2.1 (zero_grid 2 2) (zero_grid 2 2) 80 (by decide)⟩

/-- The C3 counterexample ink mask: a solid 8×8 block. -/
def c3_binary : Grid := List.replicate 8 (List.replicate 8 255)

/-- The C3 counterexample grayscale: dark ink (50) with a bright (220) 3×3
region — a hole the adaptive threshold misclassified as ink, exactly the
situation the brightness fallback exists for. -/
def c3_gray : Grid :=
  [List.replicate 8 50, List.replicate 8 50,
   [50, 50, 220, 220, 220, 50, 50, 50],
   [50, 50, 220, 220, 220, 50, 50, 50],
   [50, 50, 220, 220, 220, 50, 50, 50],
   List.replicate 8 50, List.replicate 8 50, List.replicate 8 50]

/-- The holes mask the code actually produces on the C3 counterexample. -/
def c3_holes : Grid :=
  [List.replicate 8 0, List.replicate 8 0,
   [0, 0, 255, 255, 255, 0, 0, 0],
   [0, 0, 255, 255, 255, 0, 0, 0],
   [0, 0, 255, 255, 255, 0, 0, 0],
   List.replicate 8 0, List.replicate 8 0, List.replicate 8 0]

/-- **C3 counterexample**: the claim says attempt (i), `outer ∧ ¬binary`,
falls through to Otsu only when fewer than 50 pixels lie inside the outer
mask, i.e. that with ≥ 50 pixels the holes mask equals the area-filtered
`outer ∧ ¬binary`.  On this input 64 pixels lie inside outer, yet the code
returns the (non-empty) Otsu-based holes mask while `outer ∧ ¬binary` is
empty: the code uses the ¬binary candidate precisely when the count is
*below* 50 and Otsu otherwise — the opposite of the claimed order. -/
theorem c3_counterexample :
    50 ≤ (vals_inside c3_gray (cleanup_mask c3_binary 4)).length ∧
    (split_outer_holes_masks c3_binary (some c3_gray) 4).2 ≠
      cleanup_mask (bw_and (cleanup_mask c3_binary 4) (bw_not c3_binary)) 4 := by
  have h1 : cleanup_mask c3_binary 4 = c3_binary := by decide
  have h2 : (vals_inside c3_gray c3_binary).length = 64 := by decide
  have h3 : mask_where c3_gray c3_binary = c3_gray := by decide
  have h4 : otsu_threshold c3_gray = 50 := by decide
  have h5 : threshold_binary c3_gray 50 = c3_holes := by decide
  have h6 : bw_and c3_holes c3_binary = c3_holes := by decide
  have h7 : cleanup_mask c3_holes 4 = c3_holes := by decide
  have h8 : grid_max c3_holes = 255 := by decide
  have h9 : bw_not c3_binary = zero_grid 8 8 := by decide
  have h10 : bw_and c3_binary (zero_grid 8 8) = zero_grid 8 8 := by decide
  have h11 : cleanup_mask (zero_grid 8 8) 4 = zero_grid 8 8 := by decide
  have h12 : c3_holes ≠ zero_grid 8 8 := by decide
  constructor
  · rw [h1, h2]; norm_num
  · have hsplit : (split_outer_holes_masks c3_binary (some c3_gray) 4).2 = c3_holes := by
      simp only [split_outer_holes_masks]
      rw [h1, h2, if_neg (by norm_num), h3, h4, h5, h6, h7, h8,
        if_neg (by norm_num)]
    rw [hsplit, h1, h9, h10, h11]
    exact h12

/-- Witness for C5's universal part, applied to the empty export. -/
theorem c5_layers_and_empty_metrics_witness :
    "OUTLINE" ∈ (⟨["OUTLINE", "HOLES", "REF"], []⟩ : DocModel).layers ∧
    "HOLES" ∈ (⟨["OUTLINE", "HOLES", "REF"], []⟩ : DocModel).layers ∧
    "REF" ∈ (⟨["OUTLINE", "HOLES", "REF"], []⟩ : DocModel).layers ∧
    ∀ vp ∈ ([] : List VectorPath),
      vp.layer ∈ (⟨["OUTLINE", "HOLES", "REF"], []⟩ : DocModel).layers :=
  c5_layers_and_empty_metrics.2 [] 1 16 true ⟨["OUTLINE", "HOLES", "REF"], []⟩
    (by decide)

end Sketch2Cad
